import Mathlib

/-!
Verification development for the TourneyController reconciliation controller.

The definitions below are a shallow embedding of the Go sources:
  internal/ports/allocator.go      (port allocation)
  internal/controller/controller.go (reconcile loop, ensure/teardown, secret store)
  internal/database/repository.go  (FetchMatchDetails, notification fan-out)
  internal/steam/client.go         (identity-registry HTTP error convention)

Go machine integers are modelled as `Int` (no operation here can overflow a
64-bit int on the values the controller handles, and the claims do not depend
on wraparound).  Fallible Go functions returning `(T, error)` are modelled as
`Except String T` or `Option T`.  External I/O (cluster, database, HTTP) is
modelled by explicit oracle inputs; the effects the controller issues are
recorded in an explicit trace.
-/

namespace Tourney

/-! ### Decimal ASCII encoding (model of strconv.Itoa / strconv.Atoi) -/

/-- Character for a single decimal digit (0–9); mirrors the ASCII digits
produced by Go's strconv formatting. -/
def digitChar (d : Nat) : Char :=
  match d with
  | 0 => '0' | 1 => '1' | 2 => '2' | 3 => '3' | 4 => '4'
  | 5 => '5' | 6 => '6' | 7 => '7' | 8 => '8' | _ => '9'

/-- Numeric value of an ASCII digit character. -/
def charDigitVal (c : Char) : Nat := c.toNat - 48

/-- Little-endian decimal digit characters of n, with explicit fuel so the
recursion is structural and reduces on concrete inputs. -/
def natToDigitsRev (fuel : Nat) (n : Nat) : List Char :=
  match fuel with
  | 0 => []
  | fuel + 1 => if n = 0 then [] else digitChar (n % 10) :: natToDigitsRev fuel (n / 10)

/-- Decimal representation of a natural number, most significant digit first;
`0` is rendered as `"0"` exactly as Go's strconv.Itoa does. -/
def natReprChars (n : Nat) : List Char :=
  if n = 0 then ['0'] else (natToDigitsRev n n).reverse

theorem natToDigitsRev_eq_digits :
    ∀ (fuel n : Nat), n ≤ fuel →
      natToDigitsRev fuel n = (Nat.digits 10 n).map digitChar := by
  intro fuel
  induction fuel with
  | zero =>
    intro n hn
    obtain rfl : n = 0 := Nat.le_zero.mp hn
    simp [natToDigitsRev]
  | succ f ih =>
    intro n hn
    by_cases h0 : n = 0
    · subst h0; simp [natToDigitsRev]
    · have hpos : 0 < n := Nat.pos_of_ne_zero h0
      rw [natToDigitsRev, if_neg h0,
        ih (n / 10) (by omega),
        Nat.digits_def' (by norm_num : (1 : Nat) < 10) hpos,
        List.map_cons]

theorem natReprChars_eq_digits (n : Nat) :
    natReprChars n =
      if n = 0 then ['0'] else ((Nat.digits 10 n).map digitChar).reverse := by
  unfold natReprChars
  by_cases h0 : n = 0
  · rw [if_pos h0, if_pos h0]
  · rw [if_neg h0, if_neg h0, natToDigitsRev_eq_digits n n (le_refl n)]

/-- Model of Go's strconv.Itoa on a (signed) integer. -/
def goItoa (n : Int) : String :=
  if n < 0 then ⟨'-' :: natReprChars n.natAbs⟩ else ⟨natReprChars n.natAbs⟩

/-- Value of a non-empty all-digit character list, reading left to right;
`none` when the list is empty or contains a non-digit. -/
def digitsVal (l : List Char) : Option Nat :=
  if l.isEmpty then none
  else if l.all Char.isDigit then
    some (l.foldl (fun a c => 10 * a + charDigitVal c) 0)
  else none

/-- Model of Go's strconv.Atoi: optional sign followed by at least one decimal
digit (overflow is not modelled; the controller only parses values it printed
or that fit in an int). -/
def goAtoi (s : String) : Option Int :=
  match s.data with
  | [] => none
  | c :: rest =>
    if c = '+' then (digitsVal rest).map (fun v => (v : Int))
    else if c = '-' then (digitsVal rest).map (fun v => -(v : Int))
    else (digitsVal (c :: rest)).map (fun v => (v : Int))

theorem digitChar_isDigit (d : Nat) : (digitChar d).isDigit = true := by
  unfold digitChar
  split <;> decide

theorem charDigitVal_digitChar {d : Nat} (hd : d < 10) :
    charDigitVal (digitChar d) = d := by
  interval_cases d <;> rfl

theorem foldr_digits_eq_ofDigits (ds : List Nat) (h : ∀ d ∈ ds, d < 10) :
    (ds.map digitChar).foldr (fun c a => 10 * a + charDigitVal c) 0 =
      Nat.ofDigits 10 ds := by
  induction ds with
  | nil => simp [Nat.ofDigits]
  | cons d ds ih =>
    have hd : d < 10 := h d (List.mem_cons_self d ds)
    have hds : ∀ x ∈ ds, x < 10 := fun x hx => h x (List.mem_cons_of_mem d hx)
    simp [Nat.ofDigits_cons, ih hds, charDigitVal_digitChar hd]
    ring

theorem natReprChars_all_digits (n : Nat) :
    (natReprChars n).all Char.isDigit = true := by
  rw [natReprChars_eq_digits]
  split
  · decide
  · simp only [List.all_eq_true, List.mem_reverse, List.mem_map]
    rintro c ⟨d, _, rfl⟩
    exact digitChar_isDigit d

theorem natReprChars_ne_nil (n : Nat) : natReprChars n ≠ [] := by
  rw [natReprChars_eq_digits]
  split
  · simp
  · simp [Nat.digits_ne_nil_iff_ne_zero, *]

theorem digitsVal_natReprChars (n : Nat) :
    digitsVal (natReprChars n) = some n := by
  by_cases h0 : n = 0
  · subst h0; rfl
  · have hne : natReprChars n ≠ [] := natReprChars_ne_nil n
    unfold digitsVal
    rw [if_neg (by simpa [List.isEmpty_iff] using hne),
        if_pos (natReprChars_all_digits n)]
    congr 1
    rw [natReprChars_eq_digits, if_neg h0, List.foldl_reverse]
    have h10 : ∀ d ∈ Nat.digits 10 n, d < 10 :=
      fun d hd => Nat.digits_lt_base (by norm_num) hd
    calc ((Nat.digits 10 n).map digitChar).foldr
            (fun c a => 10 * a + charDigitVal c) 0
        = Nat.ofDigits 10 (Nat.digits 10 n) := foldr_digits_eq_ofDigits _ h10
      _ = n := Nat.ofDigits_digits 10 n

theorem natReprChars_head_digit (n : Nat) {c : Char} {rest : List Char}
    (h : natReprChars n = c :: rest) : c.isDigit = true := by
  have := natReprChars_all_digits n
  rw [h] at this
  simp only [List.all_cons, Bool.and_eq_true] at this
  exact this.1

theorem goAtoi_mk_cons (c : Char) (rest : List Char) :
    goAtoi ⟨c :: rest⟩ =
      if c = '+' then (digitsVal rest).map (fun v => (v : Int))
      else if c = '-' then (digitsVal rest).map (fun v => -(v : Int))
      else (digitsVal (c :: rest)).map (fun v => (v : Int)) := rfl

/-- Round trip: parsing the decimal rendering of any integer recovers it. -/
theorem goAtoi_goItoa (n : Int) : goAtoi (goItoa n) = some n := by
  by_cases hn : n < 0
  · have h1 : goItoa n = ⟨'-' :: natReprChars n.natAbs⟩ := by
      unfold goItoa; rw [if_pos hn]
    rw [h1, goAtoi_mk_cons, if_neg (by decide), if_pos rfl,
      digitsVal_natReprChars]
    have habs : -((n.natAbs : Int)) = n := by omega
    exact congrArg some habs
  · have h1 : goItoa n = ⟨natReprChars n.natAbs⟩ := by
      unfold goItoa; rw [if_neg hn]
    obtain ⟨c, rest, hcr⟩ : ∃ c rest, natReprChars n.natAbs = c :: rest := by
      cases h : natReprChars n.natAbs with
      | nil => exact absurd h (natReprChars_ne_nil _)
      | cons c rest => exact ⟨c, rest, rfl⟩
    have hc : c.isDigit = true := natReprChars_head_digit _ hcr
    have hplus : c ≠ '+' := by rintro rfl; exact absurd hc (by decide)
    have hminus : c ≠ '-' := by rintro rfl; exact absurd hc (by decide)
    rw [h1, hcr, goAtoi_mk_cons, if_neg hplus, if_neg hminus, ← hcr,
      digitsVal_natReprChars]
    have habs : ((n.natAbs : Int)) = n := by omega
    exact congrArg some habs

theorem goItoa_ne_empty (n : Int) : goItoa n ≠ "" := by
  unfold goItoa
  split
  · intro h
    have : ('-' :: natReprChars n.natAbs) = [] := congrArg String.data h
    simp at this
  · intro h
    exact natReprChars_ne_nil n.natAbs (congrArg String.data h)

/-! ### Whitespace trimming and lowercasing (models of strings.TrimSpace
and strings.ToLower, restricted to ASCII, which is all the controller's
inputs use) -/

/-- ASCII whitespace recognised by the trimming model. -/
def goIsSpace (c : Char) : Bool :=
  c = ' ' || c = '\t' || c = '\n' || c = '\r' || c = '\x0b' || c = '\x0c'

/-- Model of Go's strings.TrimSpace: strip leading and trailing whitespace. -/
def goTrim (s : String) : String :=
  ⟨((s.data.dropWhile goIsSpace).reverse.dropWhile goIsSpace).reverse⟩

/-- Model of Go's strings.ToLower (ASCII): lowercase every character. -/
def goToLower (s : String) : String :=
  ⟨s.data.map Char.toLower⟩

/-! ### Substring containment (model of strings.Contains) -/

/-- Model of Go's strings.Contains: the second string occurs contiguously
inside the first. -/
def goContains (s sub : String) : Bool := decide (sub.data <:+: s.data)

theorem goContains_iff {s sub : String} :
    goContains s sub = true ↔ sub.data <:+: s.data := by
  simp [goContains]

/-! ### Port allocator (internal/ports/allocator.go) -/

/-- Inclusive port range, from internal/config/config.go. -/
structure PortRange where
  Start : Int
  End : Int
deriving DecidableEq

/-- The four configured ranges, from internal/config/config.go. -/
structure PortsConfig where
  Game : PortRange
  SourceTV : PortRange
  Client : PortRange
  Steam : PortRange
deriving DecidableEq

/-- Assignment of the four node ports, from allocator.go. -/
structure Assignment where
  Game : Int
  SourceTV : Int
  Client : Int
  Steam : Int
deriving DecidableEq

/-- A cluster service, reduced to the node ports of its spec (the only part
the allocator reads). -/
structure Service where
  nodePorts : List Int
deriving DecidableEq

/-- Used-set observed by Allocate: every positive node port of every listed
service (allocator.go lines 38–45). -/
def usedNodePorts (svcs : List Service) : List Int :=
  svcs.flatMap (fun svc => svc.nodePorts.filter (fun p => 0 < p))

/-- Loop body of nextFree (allocator.go lines 64–71): scan upward from `port`
for at most `fuel` candidates, returning the first one not in `used`. -/
def nextFreeAux (used : List Int) : Int → Nat → Option Int
  | _, 0 => none
  | port, fuel + 1 =>
    if port ∈ used then nextFreeAux used (port + 1) fuel else some port

/-- Model of Allocator.nextFree: first free port in the range, which is also
reserved in the returned used-set. -/
def nextFree (pr : PortRange) (used : List Int) : Option (Int × List Int) :=
  match nextFreeAux used pr.Start (pr.End + 1 - pr.Start).toNat with
  | some p => some (p, p :: used)
  | none => none

/-- Model of Allocator.Allocate (allocator.go lines 32–62): derive the
used-set from the observed services, then pick the four ports in the fixed
order game, SourceTV, client, steam, reserving each pick. -/
def Allocate (ranges : PortsConfig) (svcs : List Service) : Option Assignment :=
  match nextFree ranges.Game (usedNodePorts svcs) with
  | none => none
  | some (g, used1) =>
    match nextFree ranges.SourceTV used1 with
    | none => none
    | some (s, used2) =>
      match nextFree ranges.Client used2 with
      | none => none
      | some (cl, used3) =>
        match nextFree ranges.Steam used3 with
        | none => none
        | some (st, _) => some ⟨g, s, cl, st⟩

/-- p is the smallest port of the range that is not in the used-set. -/
def IsFirstFree (pr : PortRange) (used : List Int) (p : Int) : Prop :=
  pr.Start ≤ p ∧ p ≤ pr.End ∧ p ∉ used ∧
    ∀ q, pr.Start ≤ q → q < p → q ∈ used

/-- Every port of the range is already used. -/
def RangeExhausted (pr : PortRange) (used : List Int) : Prop :=
  ∀ p, pr.Start ≤ p → p ≤ pr.End → p ∈ used

theorem nextFreeAux_some_iff (used : List Int) :
    ∀ (fuel : Nat) (port p : Int),
      nextFreeAux used port fuel = some p ↔
        (port ≤ p ∧ p < port + (fuel : Int) ∧ p ∉ used ∧
          ∀ q, port ≤ q → q < p → q ∈ used) := by
  intro fuel
  induction fuel with
  | zero =>
    intro port p
    constructor
    · intro h; exact absurd h (by simp [nextFreeAux])
    · rintro ⟨h1, h2, -, -⟩; omega
  | succ n ih =>
    intro port p
    simp only [nextFreeAux]
    by_cases hmem : port ∈ used
    · rw [if_pos hmem, ih (port + 1) p]
      constructor
      · rintro ⟨h1, h2, h3, h4⟩
        refine ⟨by omega, by omega, h3, ?_⟩
        intro q hq1 hq2
        rcases eq_or_lt_of_le hq1 with rfl | hq1'
        · exact hmem
        · exact h4 q (by omega) hq2
      · rintro ⟨h1, h2, h3, h4⟩
        have hne : p ≠ port := fun h => h3 (h ▸ hmem)
        refine ⟨by omega, by omega, h3, ?_⟩
        intro q hq1 hq2
        exact h4 q (by omega) hq2
    · rw [if_neg hmem]
      constructor
      · rintro ⟨rfl⟩
        exact ⟨le_refl _, by omega, hmem, fun q hq1 hq2 => absurd hq2 (by omega)⟩
      · rintro ⟨h1, h2, h3, h4⟩
        rcases eq_or_lt_of_le h1 with rfl | h1'
        · rfl
        · exact absurd (h4 port (le_refl _) h1') hmem

theorem nextFreeAux_none_iff (used : List Int) :
    ∀ (fuel : Nat) (port : Int),
      nextFreeAux used port fuel = none ↔
        ∀ q, port ≤ q → q < port + (fuel : Int) → q ∈ used := by
  intro fuel
  induction fuel with
  | zero =>
    intro port
    simp only [nextFreeAux]
    constructor
    · intro _ q hq1 hq2; omega
    · intro _; trivial
  | succ n ih =>
    intro port
    simp only [nextFreeAux]
    by_cases hmem : port ∈ used
    · rw [if_pos hmem, ih (port + 1)]
      constructor
      · intro h q hq1 hq2
        rcases eq_or_lt_of_le hq1 with rfl | hq1'
        · exact hmem
        · exact h q (by omega) (by omega)
      · intro h q hq1 hq2
        exact h q (by omega) (by omega)
    · rw [if_neg hmem]
      constructor
      · intro h; exact absurd h (by simp)
      · intro h
        exact absurd (h port (le_refl _) (by omega)) hmem

theorem nextFree_some_iff {pr : PortRange} {used : List Int} {p : Int}
    {rest : List Int} :
    nextFree pr used = some (p, rest) ↔
      IsFirstFree pr used p ∧ rest = p :: used := by
  unfold nextFree
  cases h : nextFreeAux used pr.Start (pr.End + 1 - pr.Start).toNat with
  | none =>
    simp only []
    constructor
    · intro hc; exact absurd hc (by simp)
    · rintro ⟨⟨h1, h2, h3, -⟩, -⟩
      rw [nextFreeAux_none_iff] at h
      exact absurd (h p h1 (by omega)) h3
  | some q =>
    rw [nextFreeAux_some_iff] at h
    obtain ⟨h1, h2, h3, h4⟩ := h
    simp only [Option.some.injEq, Prod.mk.injEq]
    constructor
    · rintro ⟨rfl, rfl⟩
      exact ⟨⟨h1, by omega, h3, h4⟩, rfl⟩
    · rintro ⟨⟨g1, g2, g3, g4⟩, rfl⟩
      have : q = p := by
        by_contra hne
        rcases lt_or_gt_of_ne hne with hlt | hgt
        · exact h3 (g4 q h1 hlt)
        · exact g3 (h4 p g1 hgt)
      exact ⟨this, this ▸ rfl⟩

theorem nextFree_none_iff {pr : PortRange} {used : List Int} :
    nextFree pr used = none ↔ RangeExhausted pr used := by
  unfold nextFree
  cases h : nextFreeAux used pr.Start (pr.End + 1 - pr.Start).toNat with
  | none =>
    rw [nextFreeAux_none_iff] at h
    simp only [true_iff]
    intro p h1 h2
    exact h p h1 (by omega)
  | some q =>
    rw [nextFreeAux_some_iff] at h
    obtain ⟨h1, h2, h3, -⟩ := h
    constructor
    · intro hc; exact absurd hc (by simp)
    · intro hex; exact absurd (hex q h1 (by omega)) h3

theorem isFirstFree_unique {pr : PortRange} {used : List Int} {p q : Int}
    (hp : IsFirstFree pr used p) (hq : IsFirstFree pr used q) : p = q := by
  obtain ⟨p1, -, p3, p4⟩ := hp
  obtain ⟨q1, -, q3, q4⟩ := hq
  by_contra hne
  rcases lt_or_gt_of_ne hne with h | h
  · exact p3 (q4 p p1 h)
  · exact q3 (p4 q q1 h)

theorem not_exhausted_of_firstFree {pr : PortRange} {used : List Int} {p : Int}
    (hp : IsFirstFree pr used p) : ¬ RangeExhausted pr used :=
  fun hex => hp.2.2.1 (hex p hp.1 hp.2.1)

theorem nextFree_eq_some_of_firstFree {pr : PortRange} {used : List Int}
    {p : Int} (hp : IsFirstFree pr used p) :
    nextFree pr used = some (p, p :: used) := by
  cases h : nextFree pr used with
  | none => exact absurd (nextFree_none_iff.mp h) (not_exhausted_of_firstFree hp)
  | some pr' =>
    obtain ⟨q, rest⟩ := pr'
    obtain ⟨hq, hrest⟩ := nextFree_some_iff.mp h
    obtain rfl := isFirstFree_unique hq hp
    rw [hrest]

/-- Claim C1: for every observed service list and every configuration of four
port ranges, Allocate returns an assignment whose four ports are pairwise
distinct, each inside its configured inclusive range, none among the positive
node-ports of the observed services, and each the smallest free integer
scanning upward from its range start in the fixed order game, SourceTV,
client, steam with each pick reserved before the next; it returns an error
exactly when, after reserving the earlier picks, some category's range has no
free port. -/
theorem C1_allocate_correct (ranges : PortsConfig) (svcs : List Service) :
    (∀ a : Assignment, Allocate ranges svcs = some a →
      IsFirstFree ranges.Game (usedNodePorts svcs) a.Game ∧
      IsFirstFree ranges.SourceTV (a.Game :: usedNodePorts svcs) a.SourceTV ∧
      IsFirstFree ranges.Client
        (a.SourceTV :: a.Game :: usedNodePorts svcs) a.Client ∧
      IsFirstFree ranges.Steam
        (a.Client :: a.SourceTV :: a.Game :: usedNodePorts svcs) a.Steam ∧
      (a.Game ≠ a.SourceTV ∧ a.Game ≠ a.Client ∧ a.Game ≠ a.Steam ∧
        a.SourceTV ≠ a.Client ∧ a.SourceTV ≠ a.Steam ∧ a.Client ≠ a.Steam) ∧
      (a.Game ∉ usedNodePorts svcs ∧ a.SourceTV ∉ usedNodePorts svcs ∧
        a.Client ∉ usedNodePorts svcs ∧ a.Steam ∉ usedNodePorts svcs)) ∧
    (Allocate ranges svcs = none ↔
      RangeExhausted ranges.Game (usedNodePorts svcs) ∨
      ∃ g, IsFirstFree ranges.Game (usedNodePorts svcs) g ∧
        (RangeExhausted ranges.SourceTV (g :: usedNodePorts svcs) ∨
          ∃ s, IsFirstFree ranges.SourceTV (g :: usedNodePorts svcs) s ∧
            (RangeExhausted ranges.Client (s :: g :: usedNodePorts svcs) ∨
              ∃ cl, IsFirstFree ranges.Client
                  (s :: g :: usedNodePorts svcs) cl ∧
                RangeExhausted ranges.Steam
                  (cl :: s :: g :: usedNodePorts svcs)))) := by
  constructor
  · intro a ha
    unfold Allocate at ha
    split at ha
    · exact absurd ha (by simp)
    rename_i g used1 hg
    obtain ⟨hFFg, hu1⟩ := nextFree_some_iff.mp hg
    subst hu1
    split at ha
    · exact absurd ha (by simp)
    rename_i s used2 hs
    obtain ⟨hFFs, hu2⟩ := nextFree_some_iff.mp hs
    subst hu2
    split at ha
    · exact absurd ha (by simp)
    rename_i cl used3 hc
    obtain ⟨hFFc, hu3⟩ := nextFree_some_iff.mp hc
    subst hu3
    split at ha
    · exact absurd ha (by simp)
    rename_i st used4 hst
    obtain ⟨hFFst, -⟩ := nextFree_some_iff.mp hst
    simp only [Option.some.injEq] at ha
    subst ha
    refine ⟨hFFg, hFFs, hFFc, hFFst, ?_, ?_⟩
    · have hs' := hFFs.2.2.1
      have hc' := hFFc.2.2.1
      have hst' := hFFst.2.2.1
      simp only [List.mem_cons, not_or] at hs' hc' hst'
      exact ⟨fun h => hs'.1 h.symm, fun h => hc'.2.1 h.symm,
        fun h => hst'.2.2.1 h.symm, fun h => hc'.1 h.symm,
        fun h => hst'.2.1 h.symm, fun h => hst'.1 h.symm⟩
    · have hg' := hFFg.2.2.1
      have hs' := hFFs.2.2.1
      have hc' := hFFc.2.2.1
      have hst' := hFFst.2.2.1
      simp only [List.mem_cons, not_or] at hs' hc' hst'
      exact ⟨hg', hs'.2, hc'.2.2, hst'.2.2.2⟩
  · constructor
    · intro hnone
      unfold Allocate at hnone
      split at hnone
      · rename_i hg
        exact Or.inl (nextFree_none_iff.mp hg)
      rename_i g used1 hg
      obtain ⟨hFFg, hu1⟩ := nextFree_some_iff.mp hg
      subst hu1
      refine Or.inr ⟨g, hFFg, ?_⟩
      split at hnone
      · rename_i hs
        exact Or.inl (nextFree_none_iff.mp hs)
      rename_i s used2 hs
      obtain ⟨hFFs, hu2⟩ := nextFree_some_iff.mp hs
      subst hu2
      refine Or.inr ⟨s, hFFs, ?_⟩
      split at hnone
      · rename_i hc
        exact Or.inl (nextFree_none_iff.mp hc)
      rename_i cl used3 hc
      obtain ⟨hFFc, hu3⟩ := nextFree_some_iff.mp hc
      subst hu3
      refine Or.inr ⟨cl, hFFc, ?_⟩
      split at hnone
      · rename_i hst
        exact nextFree_none_iff.mp hst
      exact absurd hnone (by simp)
    · intro hcond
      unfold Allocate
      rcases hcond with hex | ⟨g, hFFg, hcond⟩
      · rw [nextFree_none_iff.mpr hex]
      · simp only [nextFree_eq_some_of_firstFree hFFg]
        rcases hcond with hex | ⟨s, hFFs, hcond⟩
        · rw [nextFree_none_iff.mpr hex]
        · simp only [nextFree_eq_some_of_firstFree hFFs]
          rcases hcond with hex | ⟨cl, hFFc, hex⟩
          · rw [nextFree_none_iff.mpr hex]
          · simp only [nextFree_eq_some_of_firstFree hFFc]
            rw [nextFree_none_iff.mpr hex]

/-- Witness for C1 at a concrete configuration: game range 10-12,
SourceTV range 10-12, client range 20-21, steam range 22-23, with one
observed service occupying node ports 10 and 20. -/
theorem C1_allocate_correct_witness :
    Allocate ⟨⟨10, 12⟩, ⟨10, 12⟩, ⟨20, 21⟩, ⟨22, 23⟩⟩ [⟨[10, 20]⟩] =
        some ⟨11, 12, 21, 22⟩ ∧
      ((11 : Int) ≠ 12 ∧ (11 : Int) ≠ 21 ∧ (11 : Int) ≠ 22 ∧
        (12 : Int) ≠ 21 ∧ (12 : Int) ≠ 22 ∧ (21 : Int) ≠ 22) :=
  ⟨by decide,
    ((C1_allocate_correct ⟨⟨10, 12⟩, ⟨10, 12⟩, ⟨20, 21⟩, ⟨22, 23⟩⟩
        [⟨[10, 20]⟩]).1 ⟨11, 12, 21, 22⟩ (by decide)).2.2.2.2.1⟩

/-! ### Database model (internal/database/repository.go) -/

/-- Row of league_matches relevant to scheduling (repository.go lines 53–61). -/
structure Match where
  ID : Int
  RosterAwayID : Int
  RosterHomeID : Int
  WinLimit : Int
  Status : Int
  ManualNotDone : Bool
deriving DecidableEq

/-- Row of league_match_rounds (repository.go lines 63–76).  The float column
score_difference is not consumed by any modelled code and is omitted. -/
structure MatchRound where
  ID : Int
  MatchID : Int
  MapID : Int
  HomeTeamScore : Int
  AwayTeamScore : Int
  LoserID : Option Int
  WinnerID : Option Int
  HasOutcome : Bool
  HomeReady : Bool
  AwayReady : Bool
deriving DecidableEq

/-- Parsed matches_server_details row (repository.go lines 78–87). -/
structure MatchDetails where
  MatchID : Int
  RoundID : Int
  ServerIP : String
  Port : Int
  SourceTVPort : Int
  Password : String
  Map : String
deriving DecidableEq

/-- Division metadata (repository.go lines 104–108). -/
structure Division where
  ID : String
  Name : String
deriving DecidableEq

/-- League metadata; only the two player counts are consumed by the modelled
code, the point tables are passed through unchanged and omitted here. -/
structure League where
  MinPlayers : Int
  MaxPlayers : Int
deriving DecidableEq

/-- Raw matches_server_details row as scanned from SQL: the port columns
arrive as text and are parsed by FetchMatchDetails. -/
structure RawDetailsRow where
  MatchID : Int
  RoundID : Int
  ServerIP : String
  Port : String
  SourceTVPort : String
  Password : String
  Map : String
deriving DecidableEq

/-- Model of Repository.FetchMatchDetails (repository.go lines 263–295): the
input is the queried row when one exists (`none` models sql.ErrNoRows, which
is returned as (nil, nil)); the port columns are trimmed and parsed with
strconv.Atoi, and a parse failure is an error. -/
def FetchMatchDetails (row? : Option RawDetailsRow) :
    Except String (Option MatchDetails) :=
  match row? with
  | none => .ok none
  | some row =>
    match goAtoi (goTrim row.Port) with
    | none => .error "parse port from details"
    | some p =>
      match goAtoi (goTrim row.SourceTVPort) with
      | none => .error "parse sourcetv port from details"
      | some s =>
        .ok (some ⟨row.MatchID, row.RoundID, row.ServerIP, p, s,
          row.Password, row.Map⟩)

/-- One user_notifications row (repository.go lines 369–378): read is always
inserted as FALSE. -/
structure NotificationRow where
  userID : Int
  read : Bool
  message : String
  link : String
deriving DecidableEq

/-- Model of Repository.SendNotificationsToTeams (repository.go lines
327–344): one row per user of the home roster followed by one per user of the
away roster, all with the same message and link. -/
def sendNotificationsToTeams (homeUsers awayUsers : List Int)
    (message link : String) : List NotificationRow :=
  (homeUsers ++ awayUsers).map (fun u => ⟨u, false, message, link⟩)

/-! ### Controller configuration (internal/config/config.go) -/

/-- Gameplay settings (config.go lines 82–89); TickRate is irrelevant to the
claims but kept for shape. -/
structure SRCDSConfig where
  TickRate : Int
  MaxPlayersOverride : Int
  StaticToken : String
  PasswordLength : Int
  RCONLength : Int
deriving DecidableEq

/-- Match-selection settings (config.go lines 91–96). -/
structure MatchConfig where
  TargetStatuses : List Int
  DefaultMap : String
  DivisionFilters : List String
deriving DecidableEq

/-- Notification settings (config.go lines 115–119). -/
structure NotificationConfig where
  Enabled : Bool
  LinkFormat : String
deriving DecidableEq

/-- The slice of Config consumed by the modelled controller code. -/
structure Config where
  Namespace : String
  Ports : PortsConfig
  SRCDS : SRCDSConfig
  MatchCfg : MatchConfig
  Notifications : NotificationConfig
deriving DecidableEq

/-! ### Controller pure helpers (internal/controller/controller.go) -/

/-- Durable per-release server state (controller.go lines 755–762). -/
structure serverState where
  ReleaseName : String
  Ports : Assignment
  Password : String
  RCON : String
  Map : String
  Token : String
deriving DecidableEq

/-- Model of preferValue's loop over primary :: fallbacks (controller.go
lines 691–700): first candidate that is non-empty after trimming, returned
trimmed; empty string when all are blank. -/
def preferList : List String → String
  | [] => ""
  | c :: rest => if goTrim c ≠ "" then goTrim c else preferList rest

/-- Model of preferValue (controller.go lines 691–700). -/
def preferValue (primary : String) (fallbacks : List String) : String :=
  preferList (primary :: fallbacks)

/-- Model of releaseName (controller.go lines 565–567). -/
def releaseName (matchID roundID : Int) : String :=
  "udl-" ++ goItoa matchID ++ "-r" ++ goItoa roundID

/-- Model of Controller.secretName (controller.go lines 674–676). -/
def secretName (rel : String) : String := rel ++ "-settings"

/-- Model of divisionMatchesFilter (controller.go lines 475–493). -/
def divisionMatchesFilter (filters : List String) (name : String) : Bool :=
  if filters.isEmpty then true
  else
    let normalized := goToLower (goTrim name)
    if normalized = "" then false
    else filters.any (fun f => if f = "" then false else goContains normalized f)

/-- Association-list lookup mirroring Go's map indexing on the secret's Data
(the eight keys written by persistStateSecret are pairwise distinct, so list
order is irrelevant). -/
def lookupData : List (String × String) → String → Option String
  | [], _ => none
  | (k, v) :: rest, key => if key = k then some v else lookupData rest key

/-- The Data map of the secret built by persistStateSecret (controller.go
lines 639–648): one byte-valued key per field, ports in decimal ASCII, and
the map key normalized through preferValue with the configured default map. -/
def persistSecretData (defaultMap : String) (state : serverState) :
    List (String × String) :=
  [ ("password", state.Password),
    ("rcon", state.RCON),
    ("game_port", goItoa state.Ports.Game),
    ("sourcetv_port", goItoa state.Ports.SourceTV),
    ("client_port", goItoa state.Ports.Client),
    ("steam_port", goItoa state.Ports.Steam),
    ("map", preferValue state.Map [defaultMap, ""]),
    ("token", state.Token) ]

/-- Model of the parse closure in loadServerState (controller.go lines
579–584): a missing key reads as the empty string. -/
def parseKey (data : List (String × String)) (key : String) : String :=
  match lookupData data key with
  | some v => v
  | none => ""

/-- Model of the toInt closure in loadServerState (controller.go lines
586–592): empty means the key is missing, otherwise strconv.Atoi. -/
def loadToInt (data : List (String × String)) (key : String) :
    Except String Int :=
  let raw := parseKey data key
  if raw = "" then .error ("secret missing " ++ key)
  else
    match goAtoi raw with
    | some v => .ok v
    | none => .error "invalid port"

/-- Model of loadServerState given the secret's Data (controller.go lines
569–625); absence of the secret itself is handled by the caller's oracle. -/
def loadServerStateData (rel : String) (data : List (String × String)) :
    Except String serverState :=
  match loadToInt data "game_port" with
  | .error e => .error e
  | .ok gamePort =>
    match loadToInt data "sourcetv_port" with
    | .error e => .error e
    | .ok sourcePort =>
      match loadToInt data "client_port" with
      | .error e => .error e
      | .ok clientPort =>
        match loadToInt data "steam_port" with
        | .error e => .error e
        | .ok steamPort =>
          .ok { ReleaseName := rel,
                Ports := ⟨gamePort, sourcePort, clientPort, steamPort⟩,
                Password := parseKey data "password",
                RCON := parseKey data "rcon",
                Map := parseKey data "map",
                Token := parseKey data "token" }

/-! ### Identity-registry client (internal/steam/client.go) -/

/-- An HTTP response as seen by querySteam.  `errHeader` is the value of the
X-error_message header (empty when absent); `bodyWrapped` is the result of
JSON-unmarshalling the body into the standard response wrapper — `some inner`
when the body is well-formed, `none` when unmarshalling fails (the JSON
library itself is external and modelled at this boundary). -/
structure HTTPResponse where
  errHeader : String
  statusCode : Nat
  bodyWrapped : Option String
deriving DecidableEq

/-- Model of SteamClient.querySteam's response handling (client.go lines
86–108): non-empty error header first, then the status check, then the
wrapper unmarshal. -/
def querySteam (resp : HTTPResponse) : Except String String :=
  if resp.errHeader ≠ "" then .error resp.errHeader
  else if resp.statusCode ≠ 200 then
    .error ("steam API request failed with status " ++
      goItoa (resp.statusCode : Int))
  else
    match resp.bodyWrapped with
    | none => .error "unmarshal response wrapper"
    | some inner => .ok inner

/-! ### Effect-trace model of the reconciler (internal/controller/controller.go)

External writes are recorded as explicit effects in issue order; external
reads and random generation are supplied by oracle records.  A round's run
produces the list of effects it issued plus `none` on success or `some msg`
when it returned an error (in which case the remaining steps were skipped,
exactly as the Go code returns early). -/

/-- An external write issued by the controller. -/
inductive Effect where
  | persistSecret (name : String) (data : List (String × String))
  | applyRelease (name : String)
  | upsertDetails (d : MatchDetails)
  | notifyBatch (rows : List NotificationRow)
  | deleteRelease (name : String) (state : serverState)
  | deleteDetails (matchID roundID : Int)
  | deleteSecret (name : String)
  | cleanupToken (matchID roundID : Int)
deriving DecidableEq

/-- Oracle for one ensureRound call: results of the external reads and of the
random generators.  `loadState` is loadServerState's result (ok none = no
secret), `mint` is generateSRCDSToken's result (none = error, triggering the
static-token fallback), `nodeIP` is pickNodeIP's result, the Ok booleans are
the success of the corresponding writes, and the user lists are what
SendNotificationsToTeams would read for the two rosters. -/
structure EnsureOracle where
  loadState : Except String (Option serverState)
  pw : String
  rcon : String
  mint : Option String
  persistOk : Bool
  applyOk : Bool
  nodeIP : Option String
  upsertOk : Bool
  homeUsers : List Int
  awayUsers : List Int

/-- The server state ensureRound works with together with the isNew flag
(controller.go lines 166–212): fresh allocation, generated credentials and
minted-or-static token when no secret existed; map refresh and token backfill
when one did.  `none` when the load errored or allocation failed. -/
def ensureServerState (cfg : Config) (m : Match) (round : MatchRound)
    (svcs : List Service) (mapName : String) (o : EnsureOracle) :
    Option (serverState × Bool) :=
  match o.loadState with
  | .error _ => none
  | .ok none =>
    match Allocate cfg.Ports svcs with
    | none => none
    | some assign =>
      let token := match o.mint with
        | some t => t
        | none => cfg.SRCDS.StaticToken
      some ({ ReleaseName := releaseName m.ID round.ID,
              Ports := assign,
              Password := o.pw,
              RCON := o.rcon,
              Map := mapName,
              Token := token }, true)
  | .ok (some st) =>
    let st1 := { st with Map := preferValue mapName [st.Map, cfg.MatchCfg.DefaultMap] }
    let st2 :=
      if st1.Token = "" then
        { st1 with Token := match o.mint with
            | some t => t
            | none => cfg.SRCDS.StaticToken }
      else st1
    some (st2, false)

/-- The notification message built on a fresh create (controller.go line
243): fmt.Sprintf with a fixed format, written out as the concatenation that
Sprintf produces. -/
def notifyMessage (matchID roundID : Int) (nodeIP : String)
    (gamePort : Int) (password : String) : String :=
  "Match " ++ goItoa matchID ++ " Round " ++ goItoa roundID ++
    " is running on " ++ nodeIP ++ ":" ++ goItoa gamePort ++
    " with password " ++ password

/-- Replacement of the first %d verb by the decimal rendering of the
argument; models fmt.Sprintf for format strings whose only verb is %d, which
is how the controller applies its configured link format (controller.go line
244). -/
def sprintfD : List Char → Int → List Char
  | [], _ => []
  | '%' :: 'd' :: rest, n => (goItoa n).data ++ rest
  | c :: rest, n => c :: sprintfD rest n

/-- String-level wrapper of sprintfD. -/
def sprintfInt (format : String) (n : Int) : String :=
  ⟨sprintfD format.data n⟩

/-- Model of Controller.ensureRound (controller.go lines 155–251): load (or
build) the state, persist the secret, apply the manifest, discover a node
address, upsert the connection details, and — only when the state was freshly
created and notifications are enabled — send the notification batch. -/
def ensureRound (cfg : Config) (m : Match) (round : MatchRound)
    (svcs : List Service) (mapName : String) (o : EnsureOracle) :
    List Effect × Option String :=
  let rel := releaseName m.ID round.ID
  match o.loadState with
  | .error e => ([], some ("load server state: " ++ e))
  | .ok _ =>
    match ensureServerState cfg m round svcs mapName o with
    | none => ([], some "allocate ports")
    | some (state, isNew) =>
      let pers := Effect.persistSecret (secretName rel)
        (persistSecretData cfg.MatchCfg.DefaultMap state)
      if o.persistOk = false then ([pers], some "persist secret")
      else
        let app := Effect.applyRelease rel
        if o.applyOk = false then ([pers, app], some "apply helm release")
        else
          match o.nodeIP with
          | none => ([pers, app], some "discover node ip")
          | some ip =>
            let payload : MatchDetails :=
              ⟨m.ID, round.ID, ip, state.Ports.Game, state.Ports.SourceTV,
                state.Password,
                preferValue state.Map [mapName, cfg.MatchCfg.DefaultMap]⟩
            let up := Effect.upsertDetails payload
            if o.upsertOk = false then
              ([pers, app, up], some "upsert match details")
            else
              if isNew && cfg.Notifications.Enabled then
                let message := notifyMessage m.ID round.ID ip
                  state.Ports.Game state.Password
                let link := sprintfInt cfg.Notifications.LinkFormat m.ID
                ([pers, app, up,
                  Effect.notifyBatch (sendNotificationsToTeams
                    o.homeUsers o.awayUsers message link)], none)
              else ([pers, app, up], none)

/-- Oracle for one teardownRound call. -/
structure TeardownOracle where
  loadState : Except String (Option serverState)
  deleteReleaseOk : Bool
  deleteDetailsOk : Bool
  deleteSecretOk : Bool

/-- The state teardownRound synthesizes when the secret is gone
(controller.go lines 267–281): ports reconstructed from the stored details
with the fixed +1/+2 offsets, empty RCON key and the configured static
token. -/
def teardownSynthState (cfg : Config) (mapName rel : String)
    (d : MatchDetails) : serverState :=
  { ReleaseName := rel,
    Ports := ⟨d.Port, d.SourceTVPort, d.Port + 1, d.Port + 2⟩,
    Password := d.Password,
    RCON := "",
    Map := preferValue d.Map [mapName, cfg.MatchCfg.DefaultMap],
    Token := cfg.SRCDS.StaticToken }

/-- Model of Controller.teardownRound (controller.go lines 253–302): load or
synthesize the state, delete the rendered release, the details row and the
state secret, then attempt token cleanup (whose failure is only logged). -/
def teardownRound (cfg : Config) (m : Match) (round : MatchRound)
    (mapName : String) (d : MatchDetails) (o : TeardownOracle) :
    List Effect × Option String :=
  let rel := releaseName m.ID round.ID
  match o.loadState with
  | .error e => ([], some ("load state for teardown: " ++ e))
  | .ok stOpt =>
    let state := match stOpt with
      | some st => st
      | none => teardownSynthState cfg mapName rel d
    let del := Effect.deleteRelease rel state
    if o.deleteReleaseOk = false then ([del], some "delete helm release")
    else if o.deleteDetailsOk = false then
      ([del, Effect.deleteDetails m.ID round.ID], some "delete match details")
    else if o.deleteSecretOk = false then
      ([del, Effect.deleteDetails m.ID round.ID,
        Effect.deleteSecret (secretName rel)], some "delete secret")
    else
      ([del, Effect.deleteDetails m.ID round.ID,
        Effect.deleteSecret (secretName rel),
        Effect.cleanupToken m.ID round.ID], none)

/-- The action reconcileMatch takes for one round (controller.go lines
135–149): ensure when the match is manually-not-done or the round has no
outcome; otherwise teardown exactly when a details row exists; otherwise
nothing. -/
inductive RoundAction where
  | ensure
  | teardown
  | skip
deriving DecidableEq

/-- Decision procedure of the round loop (controller.go lines 135–149). -/
def roundDecision (m : Match) (round : MatchRound)
    (details : Option MatchDetails) : RoundAction :=
  if m.ManualNotDone || !round.HasOutcome then .ensure
  else if details.isSome then .teardown
  else .skip

/-- Oracle inputs for one round of the reconcileMatch loop. -/
structure RoundInput where
  round : MatchRound
  mapLookup : Option String
  details : Except String (Option MatchDetails)
  svcs : List Service
  ensureO : EnsureOracle
  teardownO : TeardownOracle

/-- The round loop of reconcileMatch (controller.go lines 123–150): a details
fetch error aborts the remaining rounds; ensure/teardown errors are logged
and the loop continues. -/
def reconcileRounds (cfg : Config) (m : Match) :
    List RoundInput → List Effect × Option String
  | [] => ([], none)
  | ri :: rest =>
    let mapName := match ri.mapLookup with
      | some n => n
      | none => cfg.MatchCfg.DefaultMap
    match ri.details with
    | .error e => ([], some ("fetch match details: " ++ e))
    | .ok details =>
      let effs :=
        if m.ManualNotDone || !ri.round.HasOutcome then
          (ensureRound cfg m ri.round ri.svcs mapName ri.ensureO).1
        else
          match details with
          | some d => (teardownRound cfg m ri.round mapName d ri.teardownO).1
          | none => []
      let next := reconcileRounds cfg m rest
      (effs ++ next.1, next.2)

/-- Oracle inputs for one reconcileMatch call. -/
structure MatchOracle where
  division : Except String Division
  league : Except String League
  homeIDs : Except String (List String)
  awayIDs : Except String (List String)
  rounds : Except String (List RoundInput)

/-- Model of Controller.reconcileMatch (controller.go lines 92–153): fetch
the division, apply the division filter (skipping the match entirely when it
does not pass), fetch league metadata, both steam-id lists and the rounds,
then run the round loop. -/
def reconcileMatch (cfg : Config) (m : Match) (o : MatchOracle) :
    List Effect × Option String :=
  match o.division with
  | .error e => ([], some ("fetch division: " ++ e))
  | .ok division =>
    if divisionMatchesFilter cfg.MatchCfg.DivisionFilters division.Name = false
    then ([], none)
    else
      match o.league with
      | .error e => ([], some ("fetch league: " ++ e))
      | .ok _ =>
        match o.homeIDs with
        | .error e => ([], some ("fetch home steam ids: " ++ e))
        | .ok _ =>
          match o.awayIDs with
          | .error e => ([], some ("fetch away steam ids: " ++ e))
          | .ok _ =>
            match o.rounds with
            | .error e => ([], some ("fetch match rounds: " ++ e))
            | .ok ris => reconcileRounds cfg m ris

/-! ### Shared concrete sample values for witnesses -/

/-- Sample configuration mirroring the documented defaults. -/
def cfg0 : Config :=
  { Namespace := "udl",
    Ports := ⟨⟨30000, 30299⟩, ⟨30300, 30599⟩, ⟨40000, 40299⟩, ⟨29000, 29299⟩⟩,
    SRCDS := ⟨128, 0, "STATIC", 10, 46⟩,
    MatchCfg := ⟨[0], "tfdb_octagon_odb_a1", []⟩,
    Notifications := ⟨true, "/matches/%d"⟩ }

/-- Sample match 42 (home roster 7, away roster 8), not manually-not-done. -/
def match0 : Match := ⟨42, 8, 7, 3, 0, false⟩

/-- Sample round 7 of match 42 that already has an outcome. -/
def round0 : MatchRound := ⟨7, 42, 5, 3, 1, some 8, some 7, true, true, true⟩

/-- Sample round 7 of match 42 with no outcome yet. -/
def round1 : MatchRound := ⟨7, 42, 5, 0, 0, none, none, false, true, true⟩

/-- Sample stored connection details for match 42 round 7. -/
def details0 : MatchDetails := ⟨42, 7, "1.2.3.4", 30000, 30300, "pw", "mapx"⟩

/-- Sample ensure oracle for a first-time create: no prior secret, all writes
succeed, token minting fails (static fallback). -/
def ensureO0 : EnsureOracle :=
  ⟨.ok none, "Xa12cdE678", "rcon012345678901", none, true, true,
    some "1.2.3.4", true, [101, 102], [201]⟩

/-- Sample server state as stored in an existing secret. -/
def st0 : serverState :=
  ⟨"udl-42-r7", ⟨30000, 30300, 40000, 29000⟩, "pw", "rc", "mapx", "tok"⟩

/-- Sample ensure oracle for a re-ensure: the secret already exists. -/
def ensureO1 : EnsureOracle :=
  ⟨.ok (some st0), "p", "r", none, true, true, some "1.2.3.4", true, [1], [2]⟩

/-- Sample teardown oracle with the secret absent and all deletes succeeding. -/
def teardownO0 : TeardownOracle := ⟨.ok none, true, true, true⟩

/-! ### Claim theorems -/

/-- Claim C2: for every match and round processed in a tick, the reconciler
runs Ensure exactly when match.manual-not-done is true or round.has-outcome
is false; when that condition is false it runs Teardown exactly when a
ConnectionDetails row exists for the pair, and otherwise performs no action
for that round. -/
theorem C2_reconcile_decision (cfg : Config) (m : Match) (ri : RoundInput)
    (rest : List RoundInput) (d : Option MatchDetails)
    (hd : ri.details = .ok d) :
    (roundDecision m ri.round d = .ensure ↔
      (m.ManualNotDone = true ∨ ri.round.HasOutcome = false)) ∧
    (roundDecision m ri.round d = .teardown ↔
      (m.ManualNotDone = false ∧ ri.round.HasOutcome = true ∧
        d.isSome = true)) ∧
    (roundDecision m ri.round d = .skip ↔
      (m.ManualNotDone = false ∧ ri.round.HasOutcome = true ∧ d = none)) ∧
    ((m.ManualNotDone = true ∨ ri.round.HasOutcome = false) →
      (reconcileRounds cfg m (ri :: rest)).1 =
        (ensureRound cfg m ri.round ri.svcs
          (match ri.mapLookup with
            | some n => n
            | none => cfg.MatchCfg.DefaultMap) ri.ensureO).1 ++
          (reconcileRounds cfg m rest).1) ∧
    (∀ dd, m.ManualNotDone = false → ri.round.HasOutcome = true →
      d = some dd →
      (reconcileRounds cfg m (ri :: rest)).1 =
        (teardownRound cfg m ri.round
          (match ri.mapLookup with
            | some n => n
            | none => cfg.MatchCfg.DefaultMap) dd ri.teardownO).1 ++
          (reconcileRounds cfg m rest).1) ∧
    (m.ManualNotDone = false → ri.round.HasOutcome = true → d = none →
      (reconcileRounds cfg m (ri :: rest)).1 =
        (reconcileRounds cfg m rest).1) := by
  cases hb : m.ManualNotDone <;> cases ho : ri.round.HasOutcome <;>
    cases d <;>
    simp [roundDecision, reconcileRounds, hd, hb, ho]

/-- Witness for C2 on a resolved round with no details row: no action is
taken. -/
theorem C2_reconcile_decision_witness :
    (reconcileRounds cfg0 match0
        [⟨round0, some "mapx", .ok none, [], ensureO0, teardownO0⟩]).1 =
      (reconcileRounds cfg0 match0 []).1 :=
  (C2_reconcile_decision cfg0 match0
      ⟨round0, some "mapx", .ok none, [], ensureO0, teardownO0⟩ [] none
      rfl).2.2.2.2.2 rfl rfl rfl

/-- Claim C3: persisting a server state and loading it back by the same
release name succeeds and returns the state unchanged on release name, all
four ports, password, RCON key and token, with the map normalized by the
prefer-fallback rule over the configured default map. -/
theorem C3_persist_load_roundtrip (defaultMap : String) (state : serverState) :
    loadServerStateData state.ReleaseName (persistSecretData defaultMap state) =
      .ok { state with Map := preferValue state.Map [defaultMap, ""] } := by
  have hg : loadToInt (persistSecretData defaultMap state) "game_port" =
      .ok state.Ports.Game := by
    unfold loadToInt
    rw [show parseKey (persistSecretData defaultMap state) "game_port" =
      goItoa state.Ports.Game from rfl]
    rw [if_neg (goItoa_ne_empty _), goAtoi_goItoa]
  have hs : loadToInt (persistSecretData defaultMap state) "sourcetv_port" =
      .ok state.Ports.SourceTV := by
    unfold loadToInt
    rw [show parseKey (persistSecretData defaultMap state) "sourcetv_port" =
      goItoa state.Ports.SourceTV from rfl]
    rw [if_neg (goItoa_ne_empty _), goAtoi_goItoa]
  have hc : loadToInt (persistSecretData defaultMap state) "client_port" =
      .ok state.Ports.Client := by
    unfold loadToInt
    rw [show parseKey (persistSecretData defaultMap state) "client_port" =
      goItoa state.Ports.Client from rfl]
    rw [if_neg (goItoa_ne_empty _), goAtoi_goItoa]
  have hst : loadToInt (persistSecretData defaultMap state) "steam_port" =
      .ok state.Ports.Steam := by
    unfold loadToInt
    rw [show parseKey (persistSecretData defaultMap state) "steam_port" =
      goItoa state.Ports.Steam from rfl]
    rw [if_neg (goItoa_ne_empty _), goAtoi_goItoa]
  unfold loadServerStateData
  simp only [hg, hs, hc, hst]
  rfl

/-- Counterexample for C4: a response with an empty X-error_message header
and status 204 — inside the 2xx class — still produces an error, because
querySteam requires status exactly 200 (client.go line 93), not merely a 2xx
status as the claim states. -/
theorem C4_counterexample :
    querySteam ⟨"", 204, some "body"⟩ =
        .error ("steam API request failed with status " ++ goItoa 204) ∧
      (⟨"", 204, some "body"⟩ : HTTPResponse).errHeader = "" ∧
      200 ≤ 204 ∧ 204 < 300 :=
  ⟨rfl, rfl, by norm_num, by norm_num⟩

/-- Claim C4 as amended: querySteam returns an error iff the response carries
a non-empty X-error_message header, or a status different from 200 (not
merely outside the 2xx class), or a body that fails to decode as the
response wrapper; the error carries the header text when the header is
present, otherwise (on a non-200 status) a status-code message. -/
theorem C4_querySteam_error_convention (resp : HTTPResponse) :
    ((∃ e, querySteam resp = .error e) ↔
      (resp.errHeader ≠ "" ∨ resp.statusCode ≠ 200 ∨
        resp.bodyWrapped = none)) ∧
    (resp.errHeader ≠ "" → querySteam resp = .error resp.errHeader) ∧
    (resp.errHeader = "" → resp.statusCode ≠ 200 →
      querySteam resp = .error ("steam API request failed with status " ++
        goItoa (resp.statusCode : Int))) := by
  by_cases h1 : resp.errHeader = ""
  · by_cases h2 : resp.statusCode = 200
    · cases hb : resp.bodyWrapped <;>
        simp [querySteam, h1, h2, hb]
    · simp [querySteam, h1, h2]
  · simp [querySteam, h1]

/-- Witness for C4 (amended) at a concrete errored response. -/
theorem C4_querySteam_error_convention_witness :
    ("boom" : String) ≠ "" ∧
      querySteam ⟨"boom", 200, some "x"⟩ = .error "boom" :=
  ⟨by decide,
    (C4_querySteam_error_convention ⟨"boom", 200, some "x"⟩).2.1 (by decide)⟩

/-- Counterexample for C5: with a blank state map and a blank configured
default map, every prefer-fallback candidate is blank, yet persistStateSecret
still stores the map key (with an empty value) — controller.go line 646
writes the key unconditionally. -/
theorem C5_counterexample :
    preferValue "" ["", ""] = "" ∧
      lookupData (persistSecretData ""
        ⟨"udl-1-r1", ⟨1, 2, 3, 4⟩, "pw", "rc", "", "tok"⟩) "map" =
        some "" :=
  ⟨rfl, rfl⟩

/-- Claim C5 as amended: the map key is always written by the secret store's
Persist; its value is the prefer-fallback normalization of the state map over
the configured default map, which is the empty string when every candidate is
blank after trimming. -/
theorem C5_map_key_always_present (defaultMap : String) (state : serverState) :
    lookupData (persistSecretData defaultMap state) "map" =
      some (preferValue state.Map [defaultMap, ""]) := rfl

/-- Claim C6: when Teardown runs with the state secret absent but a
ConnectionDetails row present, it synthesizes a state with game port
details.port, spectator port details.sourcetvport, client port
details.port + 1, steam port details.port + 2, empty RCON key and the
configured static token, and renders the delete from that state. -/
theorem C6_teardown_synthesis (cfg : Config) (m : Match) (round : MatchRound)
    (mapName : String) (d : MatchDetails) (o : TeardownOracle)
    (h : o.loadState = .ok none) :
    (teardownRound cfg m round mapName d o).1.head? =
        some (.deleteRelease (releaseName m.ID round.ID)
          (teardownSynthState cfg mapName (releaseName m.ID round.ID) d)) ∧
    (teardownSynthState cfg mapName (releaseName m.ID round.ID) d).Ports.Game
        = d.Port ∧
    (teardownSynthState cfg mapName (releaseName m.ID round.ID)
        d).Ports.SourceTV = d.SourceTVPort ∧
    (teardownSynthState cfg mapName (releaseName m.ID round.ID)
        d).Ports.Client = d.Port + 1 ∧
    (teardownSynthState cfg mapName (releaseName m.ID round.ID)
        d).Ports.Steam = d.Port + 2 ∧
    (teardownSynthState cfg mapName (releaseName m.ID round.ID) d).RCON
        = "" ∧
    (teardownSynthState cfg mapName (releaseName m.ID round.ID) d).Token
        = cfg.SRCDS.StaticToken ∧
    (teardownSynthState cfg mapName (releaseName m.ID round.ID) d).Password
        = d.Password := by
  refine ⟨?_, rfl, rfl, rfl, rfl, rfl, rfl, rfl⟩
  cases hb1 : o.deleteReleaseOk <;> cases hb2 : o.deleteDetailsOk <;>
    cases hb3 : o.deleteSecretOk <;>
    simp [teardownRound, h, hb1, hb2, hb3]

/-- Witness for C6 at a concrete teardown with the secret gone. -/
theorem C6_teardown_synthesis_witness :
    teardownO0.loadState = Except.ok none ∧
      (teardownRound cfg0 match0 round0 "mapx" details0 teardownO0).1.head? =
        some (.deleteRelease (releaseName match0.ID round0.ID)
          (teardownSynthState cfg0 "mapx" (releaseName match0.ID round0.ID)
            details0)) :=
  ⟨rfl,
    (C6_teardown_synthesis cfg0 match0 round0 "mapx" details0 teardownO0
      rfl).1⟩

/-- Claim C7: an empty division-filter list passes every match; a non-empty
list whose non-empty entries are all absent from the lowercased, trimmed
division name makes reconcileMatch skip the match with no error and no
effect of any kind. -/
theorem C7_division_filter (cfg : Config) (m : Match) (o : MatchOracle)
    (d : Division) :
    (cfg.MatchCfg.DivisionFilters = [] →
      divisionMatchesFilter cfg.MatchCfg.DivisionFilters d.Name = true) ∧
    (o.division = .ok d →
      cfg.MatchCfg.DivisionFilters ≠ [] →
      (∀ f ∈ cfg.MatchCfg.DivisionFilters, f ≠ "" →
        goContains (goToLower (goTrim d.Name)) f = false) →
      reconcileMatch cfg m o = ([], none)) := by
  constructor
  · intro h
    simp [divisionMatchesFilter, h]
  · intro hdiv hne habsent
    have hfalse :
        divisionMatchesFilter cfg.MatchCfg.DivisionFilters d.Name = false := by
      unfold divisionMatchesFilter
      rw [if_neg (by simpa [List.isEmpty_iff] using hne)]
      by_cases hn : goToLower (goTrim d.Name) = ""
      · simp [hn]
      · rw [if_neg hn, List.any_eq_false]
        intro f hf
        by_cases hfe : f = ""
        · simp [hfe]
        · simp [hfe, habsent f hf hfe]
    unfold reconcileMatch
    rw [hdiv]
    simp [hfalse]

/-- Witness for C7: filters invite/premier exclude the division named
Intermediate North, and reconcileMatch does nothing. -/
theorem C7_division_filter_witness :
    reconcileMatch
        { cfg0 with MatchCfg := ⟨[0], "tfdb", ["invite", "premier"]⟩ }
        match0
        ⟨.ok ⟨"d1", "Intermediate North"⟩, .ok ⟨2, 12⟩, .ok [], .ok [],
          .ok []⟩ =
      ([], none) :=
  (C7_division_filter
      { cfg0 with MatchCfg := ⟨[0], "tfdb", ["invite", "premier"]⟩ }
      match0
      ⟨.ok ⟨"d1", "Intermediate North"⟩, .ok ⟨2, 12⟩, .ok [], .ok [], .ok []⟩
      ⟨"d1", "Intermediate North"⟩).2 rfl (by decide) (by decide)

/-- Claim C9: FetchMatchDetails distinguishes absence from malformed state:
no row yields ok-none with no error, while a row whose trimmed port or
sourcetv-port text does not parse as an integer yields an error; a row whose
ports both parse yields the parsed details. -/
theorem C9_fetch_details (row : RawDetailsRow) :
    FetchMatchDetails none = Except.ok none ∧
    (∀ e, FetchMatchDetails (some row) = .error e →
      goAtoi (goTrim row.Port) = none ∨
        goAtoi (goTrim row.SourceTVPort) = none) ∧
    ((goAtoi (goTrim row.Port) = none ∨
        goAtoi (goTrim row.SourceTVPort) = none) →
      ∃ e, FetchMatchDetails (some row) = .error e) ∧
    (∀ p sp, goAtoi (goTrim row.Port) = some p →
      goAtoi (goTrim row.SourceTVPort) = some sp →
      FetchMatchDetails (some row) =
        .ok (some ⟨row.MatchID, row.RoundID, row.ServerIP, p, sp,
          row.Password, row.Map⟩)) := by
  cases hp : goAtoi (goTrim row.Port) <;>
    cases hs : goAtoi (goTrim row.SourceTVPort) <;>
    simp [FetchMatchDetails, hp, hs]

/-- Witness for C9 at a concrete row with a malformed port column. -/
theorem C9_fetch_details_witness :
    (goAtoi (goTrim "x") = none ∨ goAtoi (goTrim "30300") = none) ∧
      ∃ e, FetchMatchDetails
          (some ⟨42, 7, "1.2.3.4", "x", "30300", "pw", "m"⟩) = .error e :=
  ⟨Or.inl (by decide),
    (C9_fetch_details ⟨42, 7, "1.2.3.4", "x", "30300", "pw", "m"⟩).2.2.1
      (Or.inl (by decide))⟩

/-- Rows of a notification batch carry exactly one row per user of the home
roster followed by one per user of the away roster. -/
theorem sendNotificationsToTeams_userIDs (h a : List Int) (msg link : String) :
    (sendNotificationsToTeams h a msg link).map (fun r => r.userID) =
      h ++ a := by
  simp [sendNotificationsToTeams, Function.comp_def]

/-- Claim C8: a notification batch is enqueued by Ensure exactly when the
server state was freshly created in that call (no prior secret existed) and
notifications are enabled; an Ensure that found an existing secret — however
it refreshed it — enqueues nothing; and the batch carries one row per user on
the home roster and one per user on the away roster. -/
theorem C8_notification_gate (cfg : Config) (m : Match) (round : MatchRound)
    (svcs : List Service) (mapName : String) (o : EnsureOracle) :
    (∀ st, o.loadState = .ok (some st) →
      ∀ rows, Effect.notifyBatch rows ∉
        (ensureRound cfg m round svcs mapName o).1) ∧
    ((ensureRound cfg m round svcs mapName o).2 = none →
      ((∃ rows, Effect.notifyBatch rows ∈
          (ensureRound cfg m round svcs mapName o).1) ↔
        (o.loadState = .ok none ∧ cfg.Notifications.Enabled = true))) ∧
    (∀ rows, Effect.notifyBatch rows ∈
        (ensureRound cfg m round svcs mapName o).1 →
      rows.map (fun r => r.userID) = o.homeUsers ++ o.awayUsers) := by
  cases hl : o.loadState with
  | error e =>
    refine ⟨?_, ?_, ?_⟩ <;> simp [ensureRound, hl]
  | ok stOpt =>
    cases stOpt with
    | none =>
      cases halloc : Allocate cfg.Ports svcs with
      | none =>
        refine ⟨?_, ?_, ?_⟩ <;>
          simp [ensureRound, ensureServerState, hl, halloc]
      | some assign =>
        cases hp : o.persistOk <;> cases ha : o.applyOk <;>
          cases hnip : o.nodeIP <;> cases hu : o.upsertOk <;>
          cases he : cfg.Notifications.Enabled <;>
          refine ⟨?_, ?_, ?_⟩ <;>
          simp [ensureRound, ensureServerState, hl, halloc, hp, ha, hnip, hu,
            he, sendNotificationsToTeams, Function.comp_def]
    | some st =>
      cases hp : o.persistOk <;> cases ha : o.applyOk <;>
        cases hnip : o.nodeIP <;> cases hu : o.upsertOk <;>
        cases he : cfg.Notifications.Enabled <;>
        refine ⟨?_, ?_, ?_⟩ <;>
        simp [ensureRound, ensureServerState, hl, hp, ha, hnip, hu, he]

/-- Witness for C8: a re-ensure that found an existing secret enqueues no
notification. -/
theorem C8_notification_gate_witness :
    ensureO1.loadState = Except.ok (some st0) ∧
      ∀ rows, Effect.notifyBatch rows ∉
        (ensureRound cfg0 match0 round1 [] "mapx" ensureO1).1 :=
  ⟨rfl,
    fun rows =>
      (C8_notification_gate cfg0 match0 round1 [] "mapx" ensureO1).1 st0 rfl
        rows⟩

/-- A string occurs in any concatenation that lists it between a prefix and a
suffix. -/
theorem goContains_of_eq (s sub : String) (pre post : List Char)
    (h : s.data = pre ++ (sub.data ++ post)) : goContains s sub = true := by
  rw [goContains_iff, h]
  exact List.infix_append' _ _ _

theorem notifyMessage_contains_ip (mID rID : Int) (ip : String) (port : Int)
    (pw : String) :
    goContains (notifyMessage mID rID ip port pw) ip = true := by
  apply goContains_of_eq _ _
    ("Match " ++ goItoa mID ++ " Round " ++ goItoa rID ++
      " is running on ").data
    ((":" ++ goItoa port ++ " with password " ++ pw).data)
  simp [notifyMessage]

theorem notifyMessage_contains_port (mID rID : Int) (ip : String) (port : Int)
    (pw : String) :
    goContains (notifyMessage mID rID ip port pw) (goItoa port) = true := by
  apply goContains_of_eq _ _
    ("Match " ++ goItoa mID ++ " Round " ++ goItoa rID ++
      " is running on " ++ ip ++ ":").data
    ((" with password " ++ pw).data)
  simp [notifyMessage]

theorem notifyMessage_contains_password (mID rID : Int) (ip : String)
    (port : Int) (pw : String) :
    goContains (notifyMessage mID rID ip port pw) pw = true := by
  apply goContains_of_eq _ _
    ("Match " ++ goItoa mID ++ " Round " ++ goItoa rID ++
      " is running on " ++ ip ++ ":" ++ goItoa port ++
      " with password ").data []
  simp [notifyMessage]

/-- Claim C10: every notification row enqueued on a first-time Ensure carries
the fixed message embedding the published node address, the game port and the
join password in plain text, and a link that is the configured link format
applied to the match id alone (the round id does not enter the link). -/
theorem C10_notification_content (cfg : Config) (m : Match)
    (round : MatchRound) (svcs : List Service) (mapName : String)
    (o : EnsureOracle) (ip : String) (hip : o.nodeIP = some ip)
    (st : serverState) (isNew : Bool)
    (hst : ensureServerState cfg m round svcs mapName o = some (st, isNew)) :
    ∀ rows, Effect.notifyBatch rows ∈
        (ensureRound cfg m round svcs mapName o).1 →
      ∀ r ∈ rows,
        r.message = notifyMessage m.ID round.ID ip st.Ports.Game
          st.Password ∧
        goContains r.message ip = true ∧
        goContains r.message (goItoa st.Ports.Game) = true ∧
        goContains r.message st.Password = true ∧
        r.link = sprintfInt cfg.Notifications.LinkFormat m.ID := by
  cases hl : o.loadState with
  | error e => simp [ensureServerState, hl] at hst
  | ok stOpt =>
    intro rows hmem r hr
    cases hp : o.persistOk <;> cases ha : o.applyOk <;>
      cases hu : o.upsertOk <;> cases hnew : isNew <;>
      cases he : cfg.Notifications.Enabled <;>
      rw [hnew] at hst <;>
      simp [ensureRound, hl, hst, hip, hp, ha, hu, he,
        sendNotificationsToTeams] at hmem
    subst hmem
    rcases List.mem_append.mp hr with hcase | hcase <;>
      obtain ⟨u, hu2, rfl⟩ := List.mem_map.mp hcase <;>
      exact ⟨rfl, notifyMessage_contains_ip m.ID round.ID ip st.Ports.Game
          st.Password,
        notifyMessage_contains_port m.ID round.ID ip st.Ports.Game
          st.Password,
        notifyMessage_contains_password m.ID round.ID ip st.Ports.Game
          st.Password, rfl⟩

/-- The state ensureRound creates on the sample first-time ensure. -/
def stNew : serverState :=
  ⟨releaseName 42 7, ⟨30000, 30300, 40000, 29000⟩, "Xa12cdE678",
    "rcon012345678901", "mapx", "STATIC"⟩

/-- The notification batch of the sample first-time ensure. -/
def rowsW : List NotificationRow :=
  sendNotificationsToTeams [101, 102] [201]
    (notifyMessage 42 7 "1.2.3.4" 30000 "Xa12cdE678")
    (sprintfInt "/matches/%d" 42)

/-- The first row of the sample notification batch. -/
def rW : NotificationRow :=
  ⟨101, false, notifyMessage 42 7 "1.2.3.4" 30000 "Xa12cdE678",
    sprintfInt "/matches/%d" 42⟩

/-- Witness for C10 at the sample first-time ensure. -/
theorem C10_notification_content_witness :
    rW.message = notifyMessage match0.ID round1.ID "1.2.3.4" stNew.Ports.Game
        stNew.Password ∧
      goContains rW.message "1.2.3.4" = true ∧
      goContains rW.message (goItoa stNew.Ports.Game) = true ∧
      goContains rW.message stNew.Password = true ∧
      rW.link = sprintfInt cfg0.Notifications.LinkFormat match0.ID :=
  C10_notification_content cfg0 match0 round1 [] "mapx" ensureO0 "1.2.3.4"
    rfl stNew true rfl rowsW (by decide) rW (by decide)

end Tourney







